import Mathlib

/-!
Verification of the golf-handicap core of the golftracker repository.

The repository's domain logic lives in two places:
* the rounds controller: `calculateScoreDifferential` and the pure
  aggregation inside `updateUserHandicap` (sort the at most 20 most recent
  score differentials, pick the best by a count table, average, round to
  one decimal, clamp into [0, 54]);
* `getHandicapHistory` in the user controller: a divergent approximation
  replayed over chronological prefixes, using a coarser count rule, a 0.96
  bonus factor, and clamping before rounding.

JavaScript numbers are modelled as exact rationals (`ℚ`); `Math.round` is
modelled as `fun x => ⌊x + 1/2⌋`, which agrees with JavaScript's
round-half-toward-positive-infinity semantics on exact values.
`Array.prototype.sort` with the numeric comparator is modelled by
`List.insertionSort (· ≤ ·)`: on a linear order any comparison sort
produces the same value list, namely the sorted permutation.
-/

/-- Model of JavaScript `Math.round`: round half toward positive infinity.
`Rat.floor` is the executable floor on `ℚ`; `jsRound_eq` relates it to `⌊·⌋`. -/
def jsRound (x : ℚ) : ℚ := ((x + 1/2).floor : ℤ)

/-- Model of JavaScript `Math.min` on two numbers. -/
def jsMin (a b : ℚ) : ℚ := if a ≤ b then a else b

/-- Model of JavaScript `Math.max` on two numbers. -/
def jsMax (a b : ℚ) : ℚ := if b ≤ a then a else b

/-- Embedding of `calculateScoreDifferential` (rounds controller).
For 9-hole rounds both the score and the rating are doubled; the result is
`((adjustedScore - adjustedRating) * 113) / slopeRating` with no rounding. -/
def calculateScoreDifferential (totalScore courseRating slopeRating : ℚ)
    (numberOfHoles : ℕ) : ℚ :=
  let adjustedScore := if numberOfHoles = 9 then totalScore * 2 else totalScore
  let adjustedRating := if numberOfHoles = 9 then courseRating * 2 else courseRating
  ((adjustedScore - adjustedRating) * 113) / slopeRating

/-- Embedding of the WHS count table inside `updateUserHandicap`
(the `numberOfScoresToUse` if/else-if chain on `rounds.length`). -/
def numberOfScoresToUse (roundCount : ℕ) : ℕ :=
  if 20 ≤ roundCount then 8
  else if 19 ≤ roundCount then 7
  else if 16 ≤ roundCount then 6
  else if 12 ≤ roundCount then 5
  else if 9 ≤ roundCount then 4
  else if 6 ≤ roundCount then 3
  else if 3 ≤ roundCount then 2
  else 1

/-- Embedding of `rounds.map(r => r.scoreDifferential).sort((a, b) => a - b)`:
the differentials of the considered rounds, sorted ascending. -/
def sortedDifferentials (rounds : List ℚ) : List ℚ :=
  rounds.insertionSort (· ≤ ·)

/-- Embedding of `sortedDifferentials.slice(0, numberOfScoresToUse)`. -/
def bestDifferentials (rounds : List ℚ) : List ℚ :=
  (sortedDifferentials rounds).take (numberOfScoresToUse rounds.length)

/-- Embedding of `bestDifferentials.reduce((sum, diff) => sum + diff, 0) /
bestDifferentials.length`. -/
def averageDifferential (rounds : List ℚ) : ℚ :=
  (bestDifferentials rounds).sum / ((bestDifferentials rounds).length : ℚ)

/-- The pure aggregation performed by `updateUserHandicap`: the spec's
`computeHandicap`. The caller supplies the player's differentials most
recent first; the DynamoDB query's `Limit: 20` is modelled by `take 20`.
Zero rounds yield 54.0; otherwise the rounded average of the best
differentials is clamped by `Math.max(0, Math.min(54, newHandicap))`. -/
def computeHandicap (diffs : List ℚ) : ℚ :=
  let rounds := diffs.take 20
  if rounds.isEmpty then 54
  else jsMax 0 (jsMin 54 (jsRound (averageDifferential rounds * 10) / 10))

/-- Embedding of the `countToUse` rule in `getHandicapHistory`
(user controller): `>= 20 → 8`, `>= 6 → Math.floor(length * 0.4)`,
otherwise 1 (the `>= 3` branch; callers only reach this with length ≥ 3).
`Math.floor(n * 0.4)` is `2 * n / 5` in exact arithmetic, and the IEEE
double products `n * 0.4` for `6 ≤ n < 20` round to values with the same
floor. -/
def historyCountToUse (n : ℕ) : ℕ :=
  if 20 ≤ n then 8
  else if 6 ≤ n then 2 * n / 5
  else 1

/-- The best differentials selected by `getHandicapHistory` for one
chronological prefix: `sortedDiffs.slice(0, countToUse)`. -/
def historyBestDiffs (p : List ℚ) : List ℚ :=
  (sortedDifferentials p).take (historyCountToUse p.length)

/-- The average `avgDiff` computed by `getHandicapHistory` for one prefix. -/
def historyAverage (p : List ℚ) : ℚ :=
  (historyBestDiffs p).sum / ((historyBestDiffs p).length : ℚ)

/-- The handicap value that `getHandicapHistory` pushes for one
chronological prefix `p` of the player's rounds: 54.0 when fewer than 3
rounds, else the clamped `avgDiff * 0.96`, and in both cases rounded to one
decimal at the push (`Math.round(handicap * 10) / 10`). -/
def historyHandicapAt (p : List ℚ) : ℚ :=
  let handicap :=
    if 3 ≤ p.length then
      jsMax 0 (jsMin 54 (historyAverage p * (96/100)))
    else 54
  jsRound (handicap * 10) / 10

/-- Embedding of the loop in `getHandicapHistory`: one handicap value per
chronological prefix `rounds.slice(0, i + 1)` of the rounds (the `date` and
`scoreDifferential` echo fields of each entry are irrelevant here). -/
def getHandicapHistory (diffs : List ℚ) : List ℚ :=
  (List.range diffs.length).map (fun i => historyHandicapAt (diffs.take (i + 1)))

/-- Outcome of the body of `updateUserHandicap` before its catch-all:
the DynamoDB query may fail, and each `UpdateCommand` may fail; a failure
anywhere aborts the body. `queryRes` is the outcome of fetching the most
recent 20 differentials, `updateRes` the outcome of writing a given
handicap to the user record. -/
def updateUserHandicapBody (queryRes : Except String (List ℚ))
    (updateRes : ℚ → Except String Unit) : Except String Unit :=
  match queryRes with
  | .error e => .error e
  | .ok rounds =>
    if rounds.isEmpty then updateRes 54
    else updateRes (computeHandicap rounds)

/-- Embedding of `updateUserHandicap` including its `try/catch`: every
error of the body is caught and logged, and the function returns normally. -/
def updateUserHandicap (queryRes : Except String (List ℚ))
    (updateRes : ℚ → Except String Unit) : Except String Unit :=
  match updateUserHandicapBody queryRes updateRes with
  | .ok _ => .ok ()
  | .error _ => .ok ()

/-- HTTP status of `createRound` from the point where the round has been
assembled: the `PutCommand` outcome, then `updateUserHandicap`, then 201;
an uncaught error anywhere is turned into 500 by the handler's catch. -/
def createRoundStatus (putRes : Except String Unit)
    (queryRes : Except String (List ℚ))
    (updateRes : ℚ → Except String Unit) : ℕ :=
  match putRes with
  | .error _ => 500
  | .ok _ =>
    match updateUserHandicap queryRes updateRes with
    | .ok _ => 201
    | .error _ => 500

/-- Sequencing of a list of awaited outcomes (`await` in a loop or
`Promise.all`): the first error aborts, otherwise all succeed. -/
def runAll : List (Except String Unit) -> Except String Unit
  | [] => .ok ()
  | .error e :: _ => .error e
  | .ok _ :: rs => runAll rs

/-- HTTP status of the tail of `createMultiPlayerRound`: per player a
`PutCommand` followed by `updateUserHandicap`, then 201; an uncaught error
is turned into 500 by the handler's catch. -/
def createMultiPlayerRoundStatus (putRes : List (Except String Unit))
    (handicapRuns : List (Except String (List ℚ) × (ℚ → Except String Unit))) : ℕ :=
  match runAll putRes with
  | .error _ => 500
  | .ok _ =>
    match runAll (handicapRuns.map (fun qu => updateUserHandicap qu.1 qu.2)) with
    | .ok _ => 201
    | .error _ => 500

/-- HTTP status of the tail of `deleteRound`: the deletions, then one
`updateUserHandicap` per affected player, then the 200 JSON response; an
uncaught error is turned into 500 by the handler's catch. -/
def deleteRoundStatus (deleteRes : List (Except String Unit))
    (handicapRuns : List (Except String (List ℚ) × (ℚ → Except String Unit))) : ℕ :=
  match runAll deleteRes with
  | .error _ => 500
  | .ok _ =>
    match runAll (handicapRuns.map (fun qu => updateUserHandicap qu.1 qu.2)) with
    | .ok _ => 200
    | .error _ => 500

section HelperLemmas

theorem jsRound_eq (x : ℚ) : jsRound x = ((⌊x + 1/2⌋ : ℤ) : ℚ) := by
  unfold jsRound
  rw [Rat.floor_def', ← Rat.floor_def]

theorem jsMin_eq (a b : ℚ) : jsMin a b = min a b := by
  unfold jsMin
  split
  · exact (min_eq_left (by assumption)).symm
  · exact (min_eq_right (le_of_not_le (by assumption))).symm

theorem jsMax_eq (a b : ℚ) : jsMax a b = max a b := by
  unfold jsMax
  split
  · exact (max_eq_left (by assumption)).symm
  · exact (max_eq_right (le_of_not_le (by assumption))).symm

/-- Unfolding of `computeHandicap` on the empty input. -/
theorem computeHandicap_nil : computeHandicap [] = 54 := by decide

/-- Unfolding of `computeHandicap` on a non-empty input. -/
theorem computeHandicap_of_ne_nil {ds : List ℚ} (h : ds ≠ []) :
    computeHandicap ds =
      jsMax 0 (jsMin 54 (jsRound (averageDifferential (ds.take 20) * 10) / 10)) := by
  unfold computeHandicap
  rw [if_neg]
  simp [List.isEmpty_iff, h]

/-- The count table always asks for at least one score. -/
theorem numberOfScoresToUse_pos (n : ℕ) : 1 ≤ numberOfScoresToUse n := by
  unfold numberOfScoresToUse
  split_ifs <;> omega

/-- The count table never asks for more scores than there are rounds. -/
theorem numberOfScoresToUse_le (n : ℕ) (hn : 1 ≤ n) : numberOfScoresToUse n ≤ n := by
  unfold numberOfScoresToUse
  split_ifs <;> omega

/-- Sorting is invariant under permutation of the input: the sorted
permutation of a list of rationals is unique. -/
theorem sortedDifferentials_congr {l₁ l₂ : List ℚ} (h : l₁.Perm l₂) :
    sortedDifferentials l₁ = sortedDifferentials l₂ := by
  unfold sortedDifferentials
  exact List.eq_of_perm_of_sorted
    ((List.perm_insertionSort _ l₁).trans (h.trans (List.perm_insertionSort _ l₂).symm))
    (List.sorted_insertionSort _ l₁) (List.sorted_insertionSort _ l₂)

theorem averageDifferential_congr {l₁ l₂ : List ℚ} (h : l₁.Perm l₂) :
    averageDifferential l₁ = averageDifferential l₂ := by
  unfold averageDifferential bestDifferentials
  rw [sortedDifferentials_congr h, h.length_eq]

/-- Every selected best differential occurs among the input rounds. -/
theorem bestDifferentials_subset (rounds : List ℚ) :
    ∀ x ∈ bestDifferentials rounds, x ∈ rounds := by
  intro x hx
  have hx' : x ∈ sortedDifferentials rounds := List.take_subset _ _ hx
  exact (List.perm_insertionSort (fun a b : ℚ => a ≤ b) rounds).mem_iff.mp hx'

/-- The selection is non-empty whenever there are rounds. -/
theorem bestDifferentials_ne_nil {rounds : List ℚ} (h : rounds ≠ []) :
    bestDifferentials rounds ≠ [] := by
  unfold bestDifferentials
  have hlen : (sortedDifferentials rounds).length = rounds.length :=
    (List.perm_insertionSort _ rounds).length_eq
  have hpos : 0 < rounds.length := List.length_pos.mpr h
  intro hnil
  have := congrArg List.length hnil
  rw [List.length_take, hlen] at this
  have h1 := numberOfScoresToUse_pos rounds.length
  simp only [List.length_nil] at this
  omega

/-- A non-empty list of negative rationals has negative sum. -/
theorem sum_neg_of_all_neg : ∀ (l : List ℚ), l ≠ [] → (∀ x ∈ l, x < 0) → l.sum < 0 := by
  intro l
  induction l with
  | nil => intro h; exact absurd rfl h
  | cons a t ih =>
    intro _ hall
    rcases List.eq_nil_or_concat t with ht | _
    · subst ht
      simpa using hall a (by simp)
    · have ha : a < 0 := hall a (by simp)
      by_cases htn : t = []
      · subst htn; simpa using ha
      · have hts : t.sum < 0 := ih htn (fun x hx => hall x (by simp [hx]))
        have : a + t.sum < 0 := add_neg ha hts
        simpa using this

end HelperLemmas

/-- C2: for positive score, rating and slope and 9 or 18 holes,
`calculateScoreDifferential` returns `((adjustedScore - adjustedRating) * 113)
/ slopeRating` with score and rating doubled exactly when 9 holes are played;
the 9-hole case coincides with the 18-hole case on doubled inputs, the
reference round `(72, 72, 113, 18)` yields 0, and no rounding is applied. -/
theorem claim_C2_differential (s r slope : ℚ) (holes : ℕ)
    (hs : 0 < s) (hr : 0 < r) (hslope : 0 < slope) (hholes : holes = 9 ∨ holes = 18) :
    calculateScoreDifferential s r slope holes =
      ((if holes = 9 then s * 2 else s) - (if holes = 9 then r * 2 else r)) * 113 / slope
    ∧ calculateScoreDifferential s r slope 9 = calculateScoreDifferential (2 * s) (2 * r) slope 18
    ∧ calculateScoreDifferential 72 72 113 18 = 0 := by
  refine ⟨rfl, ?_, by norm_num [calculateScoreDifferential]⟩
  simp only [calculateScoreDifferential]
  norm_num
  ring

theorem claim_C2_witness :
    calculateScoreDifferential 40 36 113 9 =
      ((if (9:ℕ) = 9 then (40:ℚ) * 2 else 40) -
        (if (9:ℕ) = 9 then (36:ℚ) * 2 else 36)) * 113 / 113
    ∧ calculateScoreDifferential 40 36 113 9 =
        calculateScoreDifferential (2 * 40) (2 * 36) 113 18
    ∧ calculateScoreDifferential 72 72 113 18 = 0 :=
  claim_C2_differential 40 36 113 9 (by decide) (by decide) (by decide) (Or.inl rfl)

/-- C3: an empty list of differentials (a player with zero rounds) yields
exactly the default handicap 54.0, bypassing the count table. -/
theorem claim_C3_zero_rounds : computeHandicap [] = 54 := by decide

/-- C8: `computeHandicap` is a pure function of its input: two evaluations
on the same immutable input yield the same value, with no hidden state. -/
theorem claim_C8_deterministic (ds : List ℚ) : computeHandicap ds = computeHandicap ds := rfl

theorem updateUserHandicap_ok (queryRes : Except String (List ℚ))
    (updateRes : ℚ → Except String Unit) :
    updateUserHandicap queryRes updateRes = Except.ok () := by
  unfold updateUserHandicap
  cases h : updateUserHandicapBody queryRes updateRes <;> rfl

theorem runAll_updateUserHandicap_ok
    (l : List (Except String (List ℚ) × (ℚ → Except String Unit))) :
    runAll (l.map (fun qu => updateUserHandicap qu.1 qu.2)) = Except.ok () := by
  induction l with
  | nil => rfl
  | cons a t ih =>
    rw [List.map_cons, updateUserHandicap_ok]
    exact ih

/-- C7: a failure inside `updateUserHandicap` is caught and swallowed: the
function always returns normally, and the HTTP status of round creation,
multi-player creation and deletion does not depend on the outcomes of the
handicap recomputations (only on the round mutation itself). -/
theorem claim_C7_swallowed (queryRes q₁ q₂ : Except String (List ℚ))
    (updateRes u₁ u₂ : ℚ → Except String Unit)
    (putRes : Except String Unit)
    (puts dels : List (Except String Unit))
    (h₁ h₂ : List (Except String (List ℚ) × (ℚ → Except String Unit))) :
    updateUserHandicap queryRes updateRes = Except.ok ()
    ∧ createRoundStatus putRes q₁ u₁ = createRoundStatus putRes q₂ u₂
    ∧ createRoundStatus (Except.ok ()) q₁ u₁ = 201
    ∧ createMultiPlayerRoundStatus puts h₁ = createMultiPlayerRoundStatus puts h₂
    ∧ deleteRoundStatus dels h₁ = deleteRoundStatus dels h₂ := by
  refine ⟨updateUserHandicap_ok _ _, ?_, ?_, ?_, ?_⟩
  · unfold createRoundStatus
    cases putRes <;> simp [updateUserHandicap_ok]
  · unfold createRoundStatus
    simp [updateUserHandicap_ok]
  · unfold createMultiPlayerRoundStatus
    rw [runAll_updateUserHandicap_ok, runAll_updateUserHandicap_ok]
  · unfold deleteRoundStatus
    rw [runAll_updateUserHandicap_ok, runAll_updateUserHandicap_ok]

/-- C1: for a non-empty input, only the 20 most recent differentials are
considered, the handicap is the clamped, rounded average of the
`numberOfScoresToUse` lowest of them, and with `roundCount =
min(20, available)` the count follows the step table 1-2 → 1, 3-5 → 2,
6-8 → 3, 9-11 → 4, 12-15 → 5, 16-18 → 6, 19 → 7, ≥ 20 → 8. -/
theorem claim_C1_count_table (ds : List ℚ) (h : ds ≠ []) :
    computeHandicap ds = computeHandicap (ds.take 20)
    ∧ computeHandicap ds =
        jsMax 0 (jsMin 54 (jsRound (averageDifferential (ds.take 20) * 10) / 10))
    ∧ bestDifferentials (ds.take 20) =
        (sortedDifferentials (ds.take 20)).take (numberOfScoresToUse (min 20 ds.length))
    ∧ (min 20 ds.length ≤ 2 → numberOfScoresToUse (min 20 ds.length) = 1)
    ∧ (3 ≤ min 20 ds.length ∧ min 20 ds.length ≤ 5 →
        numberOfScoresToUse (min 20 ds.length) = 2)
    ∧ (6 ≤ min 20 ds.length ∧ min 20 ds.length ≤ 8 →
        numberOfScoresToUse (min 20 ds.length) = 3)
    ∧ (9 ≤ min 20 ds.length ∧ min 20 ds.length ≤ 11 →
        numberOfScoresToUse (min 20 ds.length) = 4)
    ∧ (12 ≤ min 20 ds.length ∧ min 20 ds.length ≤ 15 →
        numberOfScoresToUse (min 20 ds.length) = 5)
    ∧ (16 ≤ min 20 ds.length ∧ min 20 ds.length ≤ 18 →
        numberOfScoresToUse (min 20 ds.length) = 6)
    ∧ (min 20 ds.length = 19 → numberOfScoresToUse (min 20 ds.length) = 7)
    ∧ (20 ≤ ds.length → numberOfScoresToUse (min 20 ds.length) = 8) := by
  refine ⟨?_, computeHandicap_of_ne_nil h, ?_, ?_, ?_, ?_, ?_, ?_, ?_, ?_, ?_⟩
  · unfold computeHandicap
    rw [List.take_take]
    norm_num
  · unfold bestDifferentials
    rw [List.length_take]
  · generalize min 20 ds.length = m
    intro hm
    unfold numberOfScoresToUse
    split_ifs <;> omega
  · generalize min 20 ds.length = m
    intro hm
    unfold numberOfScoresToUse
    split_ifs <;> omega
  · generalize min 20 ds.length = m
    intro hm
    unfold numberOfScoresToUse
    split_ifs <;> omega
  · generalize min 20 ds.length = m
    intro hm
    unfold numberOfScoresToUse
    split_ifs <;> omega
  · generalize min 20 ds.length = m
    intro hm
    unfold numberOfScoresToUse
    split_ifs <;> omega
  · generalize min 20 ds.length = m
    intro hm
    unfold numberOfScoresToUse
    split_ifs <;> omega
  · generalize min 20 ds.length = m
    intro hm
    unfold numberOfScoresToUse
    split_ifs <;> omega
  · intro hm
    rw [min_eq_left hm]
    rfl

theorem claim_C1_witness :
    computeHandicap [(5:ℚ), 10, 15, 20] = computeHandicap ([(5:ℚ), 10, 15, 20].take 20)
    ∧ computeHandicap [(5:ℚ), 10, 15, 20] =
        jsMax 0 (jsMin 54
          (jsRound (averageDifferential ([(5:ℚ), 10, 15, 20].take 20) * 10) / 10))
    ∧ bestDifferentials ([(5:ℚ), 10, 15, 20].take 20) =
        (sortedDifferentials ([(5:ℚ), 10, 15, 20].take 20)).take
          (numberOfScoresToUse (min 20 ([(5:ℚ), 10, 15, 20]).length))
    ∧ (min 20 ([(5:ℚ), 10, 15, 20]).length ≤ 2 →
        numberOfScoresToUse (min 20 ([(5:ℚ), 10, 15, 20]).length) = 1)
    ∧ (3 ≤ min 20 ([(5:ℚ), 10, 15, 20]).length ∧ min 20 ([(5:ℚ), 10, 15, 20]).length ≤ 5 →
        numberOfScoresToUse (min 20 ([(5:ℚ), 10, 15, 20]).length) = 2)
    ∧ (6 ≤ min 20 ([(5:ℚ), 10, 15, 20]).length ∧ min 20 ([(5:ℚ), 10, 15, 20]).length ≤ 8 →
        numberOfScoresToUse (min 20 ([(5:ℚ), 10, 15, 20]).length) = 3)
    ∧ (9 ≤ min 20 ([(5:ℚ), 10, 15, 20]).length ∧ min 20 ([(5:ℚ), 10, 15, 20]).length ≤ 11 →
        numberOfScoresToUse (min 20 ([(5:ℚ), 10, 15, 20]).length) = 4)
    ∧ (12 ≤ min 20 ([(5:ℚ), 10, 15, 20]).length ∧ min 20 ([(5:ℚ), 10, 15, 20]).length ≤ 15 →
        numberOfScoresToUse (min 20 ([(5:ℚ), 10, 15, 20]).length) = 5)
    ∧ (16 ≤ min 20 ([(5:ℚ), 10, 15, 20]).length ∧ min 20 ([(5:ℚ), 10, 15, 20]).length ≤ 18 →
        numberOfScoresToUse (min 20 ([(5:ℚ), 10, 15, 20]).length) = 6)
    ∧ (min 20 ([(5:ℚ), 10, 15, 20]).length = 19 →
        numberOfScoresToUse (min 20 ([(5:ℚ), 10, 15, 20]).length) = 7)
    ∧ (20 ≤ ([(5:ℚ), 10, 15, 20]).length →
        numberOfScoresToUse (min 20 ([(5:ℚ), 10, 15, 20]).length) = 8) :=
  claim_C1_count_table [(5:ℚ), 10, 15, 20] (by simp)

/-- C5: before clamping, the handicap is the arithmetic mean of the selected
best differentials rounded to one decimal by `⌊10x + 1/2⌋ / 10` — that is,
round-to-nearest with halves rounded up — and the clamp is applied to the
rounded value; an average of exactly 2.25 rounds to 2.3, as witnessed by the
input `[2.2, 2.3, 100]`, whose best two differentials average 2.25 and whose
handicap is 2.3. -/
theorem claim_C5_rounding (ds : List ℚ) (h : ds ≠ []) :
    computeHandicap ds =
      jsMax 0 (jsMin 54 (((⌊averageDifferential (ds.take 20) * 10 + 1/2⌋ : ℤ) : ℚ) / 10))
    ∧ jsRound ((225/100 : ℚ) * 10) / 10 = 23/10
    ∧ averageDifferential [(22/10 : ℚ), 23/10, 100] = 225/100
    ∧ computeHandicap [(22/10 : ℚ), 23/10, 100] = 23/10 := by
  refine ⟨?_, ?_, ?_, ?_⟩
  · rw [computeHandicap_of_ne_nil h, jsRound_eq]
  · rw [jsRound_eq]
    norm_num
  · unfold averageDifferential bestDifferentials sortedDifferentials numberOfScoresToUse
    norm_num [List.insertionSort, List.orderedInsert]
  · rw [computeHandicap_of_ne_nil (by simp)]
    have havg : averageDifferential ([(22/10 : ℚ), 23/10, 100].take 20) = 225/100 := by
      unfold averageDifferential bestDifferentials sortedDifferentials numberOfScoresToUse
      norm_num [List.insertionSort, List.orderedInsert]
    rw [havg, jsRound_eq]
    norm_num [jsMin, jsMax]

theorem claim_C5_witness :
    computeHandicap [(5:ℚ)] =
      jsMax 0 (jsMin 54 (((⌊averageDifferential ([(5:ℚ)].take 20) * 10 + 1/2⌋ : ℤ) : ℚ) / 10))
    ∧ jsRound ((225/100 : ℚ) * 10) / 10 = 23/10
    ∧ averageDifferential [(22/10 : ℚ), 23/10, 100] = 225/100
    ∧ computeHandicap [(22/10 : ℚ), 23/10, 100] = 23/10 :=
  claim_C5_rounding [(5:ℚ)] (by simp)

/-- C4: the handicap always lies in [0, 54]; a non-empty all-negative input
is clamped to exactly 0, and an input whose selected best differentials
average above 54 is clamped to exactly 54. -/
theorem claim_C4_clamped (ds : List ℚ) :
    (0 ≤ computeHandicap ds ∧ computeHandicap ds ≤ 54)
    ∧ (ds ≠ [] → (∀ x ∈ ds, x < 0) → computeHandicap ds = 0)
    ∧ (ds ≠ [] → 54 < averageDifferential (ds.take 20) → computeHandicap ds = 54) := by
  have hclamp : ∀ x : ℚ, 0 ≤ jsMax 0 (jsMin 54 x) ∧ jsMax 0 (jsMin 54 x) ≤ 54 := by
    intro x
    rw [jsMax_eq, jsMin_eq]
    exact ⟨le_max_left _ _, max_le (by norm_num) (min_le_left _ _)⟩
  refine ⟨?_, ?_, ?_⟩
  · by_cases h : ds = []
    · subst h
      rw [computeHandicap_nil]
      norm_num
    · rw [computeHandicap_of_ne_nil h]
      exact hclamp _
  · intro h hneg
    have htake : ds.take 20 ≠ [] := by
      simp [List.take_eq_nil_iff, h]
    have hbest : bestDifferentials (ds.take 20) ≠ [] := bestDifferentials_ne_nil htake
    have hmem : ∀ x ∈ bestDifferentials (ds.take 20), x < 0 := fun x hx =>
      hneg x (List.take_subset _ _ (bestDifferentials_subset _ x hx))
    have hsum : (bestDifferentials (ds.take 20)).sum < 0 :=
      sum_neg_of_all_neg _ hbest hmem
    have hlen : (0 : ℚ) < ((bestDifferentials (ds.take 20)).length : ℚ) := by
      have := List.length_pos.mpr hbest
      exact_mod_cast this
    have havg : averageDifferential (ds.take 20) < 0 := by
      unfold averageDifferential
      exact div_neg_of_neg_of_pos hsum hlen
    have hfloor : ⌊averageDifferential (ds.take 20) * 10 + 1/2⌋ ≤ 0 := by
      calc ⌊averageDifferential (ds.take 20) * 10 + 1/2⌋
        ≤ ⌊(1/2 : ℚ)⌋ := Int.floor_le_floor (by nlinarith)
        _ = 0 := by norm_num
    have hx : jsRound (averageDifferential (ds.take 20) * 10) / 10 ≤ 0 := by
      rw [jsRound_eq]
      have : ((⌊averageDifferential (ds.take 20) * 10 + 1/2⌋ : ℤ) : ℚ) ≤ 0 := by
        exact_mod_cast hfloor
      linarith
    rw [computeHandicap_of_ne_nil h, jsMax_eq, jsMin_eq,
      min_eq_right (le_trans hx (by norm_num)), max_eq_left hx]
  · intro h havg
    have hfloor : (540 : ℤ) ≤ ⌊averageDifferential (ds.take 20) * 10 + 1/2⌋ := by
      apply Int.le_floor.mpr
      push_cast
      nlinarith
    have hx : (54 : ℚ) ≤ jsRound (averageDifferential (ds.take 20) * 10) / 10 := by
      rw [jsRound_eq]
      have : (540 : ℚ) ≤ ((⌊averageDifferential (ds.take 20) * 10 + 1/2⌋ : ℤ) : ℚ) := by
        exact_mod_cast hfloor
      linarith
    rw [computeHandicap_of_ne_nil h, jsMax_eq, jsMin_eq, min_eq_left hx,
      max_eq_right (by norm_num)]

theorem claim_C4_witness :
    computeHandicap [(-1 : ℚ), -2] = 0 :=
  (claim_C4_clamped [(-1 : ℚ), -2]).2.1 (by simp) (by decide)

/-- C9: for inputs of at most 20 differentials, `computeHandicap` is
invariant under permutation of the input list: the ascending sort makes the
result depend only on the multiset of considered values. -/
theorem claim_C9_permutation (ds₁ ds₂ : List ℚ) (hlen : ds₁.length ≤ 20)
    (hperm : ds₁.Perm ds₂) : computeHandicap ds₁ = computeHandicap ds₂ := by
  have hlen₂ : ds₂.length ≤ 20 := hperm.length_eq ▸ hlen
  by_cases h : ds₁ = []
  · subst h
    rw [hperm.symm.eq_nil]
  · have h₂ : ds₂ ≠ [] := by
      intro hnil
      exact h (hperm.symm.symm.trans (hnil ▸ List.Perm.refl _)).eq_nil
    rw [computeHandicap_of_ne_nil h, computeHandicap_of_ne_nil h₂,
      List.take_of_length_le hlen, List.take_of_length_le hlen₂,
      averageDifferential_congr hperm]

theorem claim_C9_witness :
    computeHandicap [(1 : ℚ), 2] = computeHandicap [(2 : ℚ), 1] :=
  claim_C9_permutation [(1 : ℚ), 2] [(2 : ℚ), 1] (by simp) (by decide)

theorem jsRoundTo1_bounds {x : ℚ} (h0 : 0 ≤ x) (h54 : x ≤ 54) :
    0 ≤ jsRound (x * 10) / 10 ∧ jsRound (x * 10) / 10 ≤ 54 := by
  rw [jsRound_eq]
  constructor
  · apply div_nonneg _ (by norm_num)
    have hfl : (0 : ℤ) ≤ ⌊x * 10 + 1/2⌋ := Int.le_floor.mpr (by push_cast; nlinarith)
    exact_mod_cast hfl
  · have hfl : ⌊x * 10 + 1/2⌋ ≤ 540 := by
      have h1 : x * 10 + 1/2 ≤ 1081/2 := by nlinarith
      calc ⌊x * 10 + 1/2⌋ ≤ ⌊(1081/2 : ℚ)⌋ := Int.floor_le_floor h1
        _ = 540 := by norm_num
    have h2 : ((⌊x * 10 + 1/2⌋ : ℤ) : ℚ) ≤ 540 := by exact_mod_cast hfl
    linarith

theorem historyHandicapAt_bounds (p : List ℚ) :
    0 ≤ historyHandicapAt p ∧ historyHandicapAt p ≤ 54 := by
  simp only [historyHandicapAt]
  split
  · rw [jsMax_eq, jsMin_eq]
    exact jsRoundTo1_bounds (le_max_left _ _) (max_le (by norm_num) (min_le_left _ _))
  · exact jsRoundTo1_bounds (by norm_num) (by norm_num)

/-- C10: every value in the handicap-history series lies in [0.0, 54.0]:
each entry clamps the 0.96-scaled average into [0, 54] (or is the default
54) and only then rounds to one decimal, which cannot leave the interval. -/
theorem claim_C10_history_range (ds : List ℚ) (h : ℚ)
    (hmem : h ∈ getHandicapHistory ds) : 0 ≤ h ∧ h ≤ 54 := by
  unfold getHandicapHistory at hmem
  obtain ⟨i, hi, rfl⟩ := List.mem_map.mp hmem
  exact historyHandicapAt_bounds _

theorem claim_C10_witness :
    0 ≤ historyHandicapAt ([(1:ℚ)].take (0 + 1))
    ∧ historyHandicapAt ([(1:ℚ)].take (0 + 1)) ≤ 54 :=
  claim_C10_history_range [(1:ℚ)] _ (by simp [getHandicapHistory])

/-- C6: the history computation returns exactly 54.0 for a chronological
prefix of fewer than 3 rounds; otherwise it sorts the prefix's
differentials ascending, takes the `countToUse` best with
`countToUse = 8` for 20 or more rounds, `⌊count * 0.4⌋` for 6-19 rounds
and 1 for 3-5 rounds, averages them, applies the fixed 0.96 bonus factor,
clamps into [0, 54] and rounds the entry to one decimal — a count rule
distinct from the authoritative `numberOfScoresToUse` table. -/
theorem claim_C6_history_algorithm (ds : List ℚ) (i : ℕ) (hi : i < ds.length) :
    (getHandicapHistory ds).getD i 0 = historyHandicapAt (ds.take (i + 1))
    ∧ ((ds.take (i + 1)).length < 3 → historyHandicapAt (ds.take (i + 1)) = 54)
    ∧ (3 ≤ (ds.take (i + 1)).length →
        historyHandicapAt (ds.take (i + 1)) =
          jsRound (jsMax 0 (jsMin 54 (historyAverage (ds.take (i + 1)) * (96/100))) * 10) / 10)
    ∧ historyBestDiffs (ds.take (i + 1)) =
        (sortedDifferentials (ds.take (i + 1))).take
          (historyCountToUse (ds.take (i + 1)).length)
    ∧ (20 ≤ (ds.take (i + 1)).length → historyCountToUse (ds.take (i + 1)).length = 8)
    ∧ (6 ≤ (ds.take (i + 1)).length ∧ (ds.take (i + 1)).length < 20 →
        historyCountToUse (ds.take (i + 1)).length =
          ⌊((ds.take (i + 1)).length : ℚ) * (4/10)⌋₊)
    ∧ (3 ≤ (ds.take (i + 1)).length ∧ (ds.take (i + 1)).length < 6 →
        historyCountToUse (ds.take (i + 1)).length = 1)
    ∧ historyCountToUse 3 ≠ numberOfScoresToUse 3 := by
  refine ⟨?_, ?_, ?_, rfl, ?_, ?_, ?_, by decide⟩
  · unfold getHandicapHistory
    rw [List.getD_eq_getElem _ _ (by simpa using hi)]
    simp
  · intro hlt
    simp only [historyHandicapAt]
    rw [if_neg (by omega), jsRound_eq]
    norm_num
  · intro h3
    simp only [historyHandicapAt]
    rw [if_pos h3]
  · intro h20
    unfold historyCountToUse
    rw [if_pos h20]
  · rintro ⟨h6, h20⟩
    unfold historyCountToUse
    rw [if_neg (by omega), if_pos h6]
    rw [show (((ds.take (i + 1)).length : ℚ) * (4/10)) =
      ((4 * (ds.take (i + 1)).length : ℕ) : ℚ) / ((10 : ℕ) : ℚ) from by push_cast; ring]
    rw [Nat.floor_div_nat, Nat.floor_natCast]
    omega
  · rintro ⟨h3, h6⟩
    unfold historyCountToUse
    rw [if_neg (by omega), if_neg (by omega)]

theorem claim_C6_witness :
    (getHandicapHistory [(1:ℚ), 2, 3]).getD 2 0 = historyHandicapAt ([(1:ℚ), 2, 3].take (2 + 1)) :=
  (claim_C6_history_algorithm [(1:ℚ), 2, 3] 2 (by simp)).1
